import Mathlib

/-!
# LED Badge Designer — frame pipeline and sprite codec, formalized

A shallow embedding of the frame-pipeline and sprite-codec core of the
LED-Badge-Designer repository, with theorems settling the specification
claims about it.

Conventions of the embedding:
* JavaScript `Uint8ClampedArray` pixel buffers become `List Nat` (samples
  are always written as 0 or 255 by the code under study, so no clamping
  arithmetic is ever exercised).
* JavaScript numbers used for fractional arithmetic (luma weights, fps
  table) become `ℚ`.
* `crypto.randomUUID()` is an external entropy source; functions that call
  it take the fresh identifier(s) as explicit arguments (or derive them
  from the frame index, for the decoder).
* Browser externals (canvas 2d contexts, PNG encoding, `Blob`,
  `localStorage`) are modelled only up to the data they carry: the sprite
  renderer's raster is the grayscale sample grid the code paints via
  `putImageData` (each sample expanded to R=G=B=sample, A=255), and the
  final PNG byte encoding is outside the model.
* `btoa`/`atob` are the platform's RFC 4648 base64 codec; they are
  implemented here concretely on byte lists.  `fromBase64` returns `none`
  where `atob` would throw (`InvalidCharacterError`).
-/

namespace Badge

/-! ## Configuration constants (src/config/constants.ts) -/

def OUTPUT_WIDTH : Nat := 48

def OUTPUT_HEIGHT : Nat := 11

def MAX_FRAMES : Nat := 120

/-! ## Frame model (src/types/frames.ts, src/utils/frameUtils.ts) -/

/-- `BinaryFrame` from src/types/frames.ts: `data` has `width * height`
samples, each 0 (black) or 255 (white). -/
structure BinaryFrame where
  id : String
  width : Nat
  height : Nat
  data : List Nat
  deriving Repr, DecidableEq

/-- `createBlankFrame` from src/utils/frameUtils.ts.  `new
Uint8ClampedArray(OUTPUT_WIDTH * OUTPUT_HEIGHT)` zero-initializes, so every
sample starts at 0.  The fresh `crypto.randomUUID()` is passed in as `id`. -/
def createBlankFrame (id : String) : BinaryFrame :=
  { id := id
    width := OUTPUT_WIDTH
    height := OUTPUT_HEIGHT
    data := List.replicate (OUTPUT_WIDTH * OUTPUT_HEIGHT) 0 }

/-- `cloneFrame` from src/utils/frameUtils.ts: deep copy of the pixel
buffer under a fresh id. -/
def cloneFrame (frame : BinaryFrame) (newId : String) : BinaryFrame :=
  { id := newId
    width := frame.width
    height := frame.height
    data := frame.data }

/-! ## Speed table (src/config/speeds.ts) -/

structure SpeedSetting where
  speed : Int
  fps : ℚ
  deriving Repr, DecidableEq

def SPEEDS : List SpeedSetting :=
  [ ⟨8, 15⟩, ⟨7, 7.5⟩, ⟨6, 4.5⟩, ⟨5, 2.8⟩, ⟨4, 2.4⟩, ⟨3, 2.0⟩, ⟨2, 1.3⟩, ⟨1, 1.2⟩ ]

/-- `speedToFps` from src/config/speeds.ts:
`SPEEDS.find((entry) => entry.speed === speed)?.fps ?? SPEEDS[0].fps`. -/
def speedToFps (speed : Int) : ℚ :=
  match SPEEDS.find? (fun entry => entry.speed == speed) with
  | some entry => entry.fps
  | none => (SPEEDS.headD ⟨0, 0⟩).fps

/-! ## Timeline editor operations (src/components/PixelEditorPanel.tsx) -/

/-- `clampFrames` from PixelEditorPanel.tsx:
`frames.slice(0, MAX_FRAMES || frames.length)`; `MAX_FRAMES = 120` is
truthy, so this is a prefix of length at most `MAX_FRAMES`. -/
def clampFrames (frames : List BinaryFrame) : List BinaryFrame :=
  frames.take MAX_FRAMES

/-- `addFrame` from PixelEditorPanel.tsx: rejected (state unchanged) at
capacity, otherwise appends a fresh blank frame and clamps. -/
def addFrame (frames : List BinaryFrame) (newId : String) : List BinaryFrame :=
  if MAX_FRAMES ≤ frames.length then frames
  else clampFrames (frames ++ [createBlankFrame newId])

/-- `duplicateFrame` from PixelEditorPanel.tsx: appends a clone of the
active frame unless at capacity; a missing active frame is a no-op. -/
def duplicateFrame (frames : List BinaryFrame) (activeId newId : String) :
    List BinaryFrame :=
  match frames.find? (fun frame => frame.id == activeId) with
  | none => frames
  | some activeFrame =>
      if MAX_FRAMES ≤ frames.length then frames
      else clampFrames (frames ++ [cloneFrame activeFrame newId])

/-- `deleteFrame` from PixelEditorPanel.tsx: rejected when only one frame
remains (`frames.length <= 1`), otherwise removes every frame whose id is
the active id. -/
def deleteFrame (frames : List BinaryFrame) (activeId : String) :
    List BinaryFrame :=
  if frames.length ≤ 1 then frames
  else frames.filter (fun frame => frame.id != activeId)

/-! ## Persistence hydration (src/utils/persistence.ts) -/

/-- `PersistedFrame` from src/utils/persistence.ts: the shape stored in
localStorage.  `data` is an arbitrary numeric array (possibly the wrong
length); stored numbers are modelled as `Int`. -/
structure PersistedFrame where
  id : String
  width : Nat
  height : Nat
  data : List Int
  deriving Repr, DecidableEq

/-- One step of `hydrateFrames`: rebuild a frame's pixel buffer at its
declared `width * height` length.  `frame.data[i] === 0` maps to 0; any
other value — including a missing index (`undefined === 0` is false) —
maps to 255. -/
def hydrateOne (frame : PersistedFrame) : BinaryFrame :=
  { id := frame.id
    width := frame.width
    height := frame.height
    data := (List.range (frame.width * frame.height)).map (fun i =>
      if frame.data.get? i = some 0 then 0 else 255) }

/-- `hydrateFrames` from src/utils/persistence.ts.  The `typeof` guards of
the source are enforced by the Lean types; the empty-input early return is
kept. -/
def hydrateFrames (frames : List PersistedFrame) : List BinaryFrame :=
  if frames.isEmpty then [] else frames.map hydrateOne

/-! ## Sampling & threshold engine (src/components/VideoPanel.tsx) -/

/-- A decoded `ImageData`: flat RGBA samples, `data.length = 4 * width *
height` in the browser (the embedding reads out of range as 0, which a
well-formed `ImageData` never hits). -/
structure ImageData where
  width : Nat
  height : Nat
  data : List Nat
  deriving Repr, DecidableEq

/-- `thresholdFrame` from src/components/VideoPanel.tsx.  `threshold` and
`invertOutput` are React state captured by the closure in the source and
passed explicitly here.  For each output index the selected pixel's RGB is
read (alpha ignored), luma is `0.299*r + 0.587*g + 0.114*b`, the value is
0 when `gray >= threshold` else 255, and `invertOutput` swaps 0 and 255. -/
def thresholdFrame (threshold : ℚ) (invertOutput : Bool)
    (imageData : ImageData) : List Nat :=
  (List.range (imageData.width * imageData.height)).map (fun idx =>
    let r : ℚ := imageData.data.getD (4 * idx) 0
    let g : ℚ := imageData.data.getD (4 * idx + 1) 0
    let b : ℚ := imageData.data.getD (4 * idx + 2) 0
    let gray : ℚ := 0.299 * r + 0.587 * g + 0.114 * b
    let val : Nat := if threshold ≤ gray then 0 else 255
    if invertOutput then (if val = 0 then 255 else 0) else val)

/-! ## Base64 (the platform `btoa`/`atob` used by src/utils/frameFile.ts) -/

/-- The RFC 4648 base64 alphabet in index order. -/
def base64Chars : List Char :=
  "ABCDEFGHIJKLMNOPQRSTUVWXYZabcdefghijklmnopqrstuvwxyz0123456789+/".toList

/-- Sextet value (0–63) to its alphabet character. -/
def sextetToChar (s : Nat) : Char :=
  base64Chars.getD s 'A'

/-- Alphabet character back to its sextet value; `none` for a character
outside the alphabet (where `atob` throws). -/
def charToSextet (c : Char) : Option Nat :=
  base64Chars.findIdx? (fun d => d == c)

/-- Encode bytes three at a time into four base64 characters, padding the
final partial group with `=`. -/
def encodeChunks : List Nat → List Char
  | b0 :: b1 :: b2 :: rest =>
      sextetToChar (b0 / 4) ::
      sextetToChar (b0 % 4 * 16 + b1 / 16) ::
      sextetToChar (b1 % 16 * 4 + b2 / 64) ::
      sextetToChar (b2 % 64) ::
      encodeChunks rest
  | [b0, b1] =>
      [sextetToChar (b0 / 4), sextetToChar (b0 % 4 * 16 + b1 / 16),
       sextetToChar (b1 % 16 * 4), '=']
  | [b0] =>
      [sextetToChar (b0 / 4), sextetToChar (b0 % 4 * 16), '=', '=']
  | [] => []

/-- Decode base64 characters four at a time; `none` on any malformed
input (bad character, bad length, misplaced padding), where `atob`
throws. -/
def decodeChunks : List Char → Option (List Nat)
  | [] => some []
  | c0 :: c1 :: c2 :: c3 :: rest => do
      let s0 ← charToSextet c0
      let s1 ← charToSextet c1
      let b0 := s0 * 4 + s1 / 16
      if c2 = '=' then
        if c3 = '=' ∧ rest = [] then some [b0] else none
      else do
        let s2 ← charToSextet c2
        let b1 := s1 % 16 * 16 + s2 / 4
        if c3 = '=' then
          if rest = [] then some [b0, b1] else none
        else do
          let s3 ← charToSextet c3
          let b2 := s2 % 4 * 64 + s3
          let tail ← decodeChunks rest
          some (b0 :: b1 :: b2 :: tail)
  | _ => none

/-- `toBase64` from src/utils/frameFile.ts (via `btoa`). -/
def toBase64 (bytes : List Nat) : String :=
  String.mk (encodeChunks bytes)

/-- `fromBase64` from src/utils/frameFile.ts (via `atob`); `none` models
the thrown `InvalidCharacterError`. -/
def fromBase64 (encoded : String) : Option (List Nat) :=
  decodeChunks encoded.toList

/-! ## Frame-sequence codec (src/utils/frameFile.ts) -/

/-- The bit-packing loop of `packFrameData`: bytes start zeroed at length
`ceil(totalPixels / 8)`; sample `i` sets bit `i & 7` of byte `i >> 3` when
it is black (`frame.data[i] === 0`, false for a missing index). -/
def packBytes (data : List Nat) (totalPixels : Nat) : List Nat :=
  (List.range totalPixels).foldl
    (fun bytes i =>
      if data.get? i = some 0 then
        bytes.set (i / 8) (bytes.getD (i / 8) 0 ||| (1 <<< (i % 8)))
      else bytes)
    (List.replicate ((totalPixels + 7) / 8) 0)

/-- `packFrameData` from src/utils/frameFile.ts. -/
def packFrameData (frame : BinaryFrame) : String :=
  toBase64 (packBytes frame.data (frame.width * frame.height))

/-- The bit-reading loop of `unpackFrameData`: sample `i` is 0 (black)
when bit `i & 7` of byte `i >> 3` is set, else 255.  A byte index past the
end of the payload reads as 0 (`undefined >> bitIndex` is 0 in JS), so a
truncated payload yields 255 samples. -/
def unpackBytes (bytes : List Nat) (totalPixels : Nat) : List Nat :=
  (List.range totalPixels).map (fun i =>
    if (bytes.getD (i / 8) 0 >>> (i % 8)) &&& 1 = 1 then 0 else 255)

/-- Errors thrown by the codec (`throw new Error(...)` in the source, plus
the platform `InvalidCharacterError` out of `atob`). -/
inductive CodecError where
  | emptySequence
  | unsupportedVersion
  | emptyFrameList
  | invalidBase64
  deriving Repr, DecidableEq

/-- `unpackFrameData` from src/utils/frameFile.ts; a base64 failure
propagates out (the source does not catch it). -/
def unpackFrameData (packed : String) (width height : Nat) :
    Except CodecError (List Nat) :=
  match fromBase64 packed with
  | none => .error .invalidBase64
  | some bytes => .ok (unpackBytes bytes (width * height))

structure PackedFrame where
  data : String
  deriving Repr, DecidableEq

/-- `FrameFile` from src/utils/frameFile.ts.  `frames` is `Option`-valued
so that an absent field of a parsed JSON file is representable
(`!Array.isArray(file.frames)`); `meta.createdAt` carries no pixel
information and is omitted. -/
structure FrameFile where
  version : Nat
  width : Nat
  height : Nat
  speed : Option Int := none
  frames : Option (List PackedFrame)
  deriving Repr, DecidableEq

/-- `framesToFile` from src/utils/frameFile.ts.  `frames[0].width ||
OUTPUT_WIDTH` falls back exactly when the stored width is 0 (JS falsy),
likewise for the height. -/
def framesToFile (frames : List BinaryFrame) (speed : Option Int) :
    Except CodecError FrameFile :=
  match frames with
  | [] => .error .emptySequence
  | firstFrame :: _ =>
      .ok { version := 1
            width := if firstFrame.width = 0 then OUTPUT_WIDTH else firstFrame.width
            height := if firstFrame.height = 0 then OUTPUT_HEIGHT else firstFrame.height
            speed := speed
            frames := some (frames.map (fun frame => ⟨packFrameData frame⟩)) }

/-- `fileToFrames` from src/utils/frameFile.ts.  Decoded frames get fresh
`crypto.randomUUID()` ids, modelled as the decimal frame index. -/
def fileToFrames (file : FrameFile) :
    Except CodecError (List BinaryFrame × Option Int) :=
  if file.version ≠ 1 then .error .unsupportedVersion
  else
    let width := if file.width = 0 then OUTPUT_WIDTH else file.width
    let height := if file.height = 0 then OUTPUT_HEIGHT else file.height
    match file.frames with
    | none => .error .emptyFrameList
    | some [] => .error .emptyFrameList
    | some packedFrames => do
        let hydrated ← packedFrames.enum.mapM (fun pair => do
          let data ← unpackFrameData pair.2.data width height
          pure { id := toString pair.1, width := width, height := height,
                 data := data : BinaryFrame })
        pure (hydrated, file.speed)

/-! ## Sprite compositor (src/utils/spriteRenderer.ts region of the source) -/

inductive SpriteError where
  | noFrames
  | invalidImageData
  deriving Repr, DecidableEq

/-- The sprite artifact.  `raster` is the canvas's grayscale sample grid
(row-major, `width * height` entries); `putImageData` writes opaque
grayscale pixels (R=G=B=sample, A=255) and the canvas starts at sample 0,
so one grayscale channel carries the whole picture.  The PNG `Blob`
encoding of that raster is a browser external outside the model. -/
structure RenderedSprite where
  raster : List Nat
  frameCount : Nat
  width : Nat
  height : Nat
  deriving Repr, DecidableEq

/-- `ctx.putImageData(imageData, dx, 0)`: replace every canvas sample in
the rectangle `[dx, dx + frame.width) × [0, frame.height)`, clipped to the
canvas. -/
def putImageData (canvas : List Nat) (canvasWidth : Nat)
    (frame : BinaryFrame) (dx : Nat) : List Nat :=
  canvas.mapIdx (fun p old =>
    let x := p % canvasWidth
    let y := p / canvasWidth
    if dx ≤ x ∧ x < dx + frame.width ∧ y < frame.height then
      frame.data.getD (y * frame.width + (x - dx)) 0
    else old)

/-- `renderFramesToSpritePNG` from the sprite renderer: a canvas of
`OUTPUT_WIDTH * frames.length × OUTPUT_HEIGHT` device pixels, frame `k`
blitted at horizontal offset `k * OUTPUT_WIDTH`.  The `new ImageData(...)`
constructor throws unless the RGBA buffer matches the declared size, i.e.
unless `frame.data.length = frame.width * frame.height`. -/
def renderFramesToSpritePNG (frames : List BinaryFrame) :
    Except SpriteError RenderedSprite :=
  if frames.isEmpty then .error .noFrames
  else
    let frameCount := frames.length
    let width := OUTPUT_WIDTH * frameCount
    do
      let raster ← frames.enum.foldlM
        (fun canvas pair =>
          if pair.2.data.length = pair.2.width * pair.2.height then
            .ok (putImageData canvas width pair.2 (pair.1 * OUTPUT_WIDTH))
          else .error .invalidImageData)
        (List.replicate (width * OUTPUT_HEIGHT) 0)
      pure { raster := raster, frameCount := frameCount, width := width,
             height := OUTPUT_HEIGHT }

-- Decidable equality of results, for concrete evaluations.
deriving instance DecidableEq for Except

/-! ## Theorems -/

/-- C9: `speedToFps` maps speed levels 1–8 to 1.2, 1.3, 2.0, 2.4, 2.8,
4.5, 7.5, 15.0 respectively, and every speed outside 1–8 falls back to the
fps of the table's first entry, 15. -/
theorem speedToFps_table (s : Int) (hs : s < 1 ∨ 8 < s) :
    (speedToFps 1 = 1.2 ∧ speedToFps 2 = 1.3 ∧ speedToFps 3 = 2.0 ∧
     speedToFps 4 = 2.4 ∧ speedToFps 5 = 2.8 ∧ speedToFps 6 = 4.5 ∧
     speedToFps 7 = 7.5 ∧ speedToFps 8 = 15) ∧
    speedToFps s = (SPEEDS.headD ⟨0, 0⟩).fps ∧
    (SPEEDS.headD ⟨0, 0⟩).fps = 15 := by
  refine ⟨⟨rfl, rfl, rfl, rfl, rfl, rfl, rfl, rfl⟩, ?_, rfl⟩
  have h8 : ((8 : Int) == s) = false := by simp; omega
  have h7 : ((7 : Int) == s) = false := by simp; omega
  have h6 : ((6 : Int) == s) = false := by simp; omega
  have h5 : ((5 : Int) == s) = false := by simp; omega
  have h4 : ((4 : Int) == s) = false := by simp; omega
  have h3 : ((3 : Int) == s) = false := by simp; omega
  have h2 : ((2 : Int) == s) = false := by simp; omega
  have h1 : ((1 : Int) == s) = false := by simp; omega
  simp [speedToFps, SPEEDS, List.find?, h1, h2, h3, h4, h5, h6, h7, h8]

/-- C9 witness: the fallback branch evaluated at speed 0. -/
theorem speedToFps_table_witness :
    (speedToFps 1 = 1.2 ∧ speedToFps 2 = 1.3 ∧ speedToFps 3 = 2.0 ∧
     speedToFps 4 = 2.4 ∧ speedToFps 5 = 2.8 ∧ speedToFps 6 = 4.5 ∧
     speedToFps 7 = 7.5 ∧ speedToFps 8 = 15) ∧
    speedToFps 0 = (SPEEDS.headD ⟨0, 0⟩).fps ∧
    (SPEEDS.headD ⟨0, 0⟩).fps = 15 :=
  speedToFps_table 0 (Or.inl (by decide))

/-- C7: deleting from a 1-frame sequence is rejected: the sequence is
returned unchanged, so it still holds exactly one frame with the same id
and pixel data. -/
theorem deleteFrame_singleton (frames : List BinaryFrame) (activeId : String)
    (h : frames.length = 1) :
    deleteFrame frames activeId = frames ∧
    (deleteFrame frames activeId).length = 1 := by
  have : deleteFrame frames activeId = frames := by
    simp [deleteFrame, h]
  exact ⟨this, by rw [this, h]⟩

/-- C7 witness: deleting the only frame of a concrete sequence. -/
theorem deleteFrame_singleton_witness :
    deleteFrame [createBlankFrame "only"] "only" = [createBlankFrame "only"] ∧
    (deleteFrame [createBlankFrame "only"] "only").length = 1 :=
  deleteFrame_singleton [createBlankFrame "only"] "only" (by decide)

/-- C8: at capacity (`MAX_FRAMES = 120` frames), both adding a blank frame
and duplicating a frame return the sequence unchanged — same length, no
truncation of existing frames. -/
theorem capacity_noop (frames : List BinaryFrame)
    (newId activeId dupId : String) (h : frames.length = MAX_FRAMES) :
    addFrame frames newId = frames ∧
    duplicateFrame frames activeId dupId = frames := by
  constructor
  · simp [addFrame, h]
  · unfold duplicateFrame
    cases frames.find? (fun frame => frame.id == activeId) with
    | none => rfl
    | some activeFrame => simp [h]

/-- C8 witness: a concrete 120-frame sequence is left unchanged by both
operations. -/
theorem capacity_noop_witness :
    addFrame (List.replicate 120 (createBlankFrame "x")) "new" =
      List.replicate 120 (createBlankFrame "x") ∧
    duplicateFrame (List.replicate 120 (createBlankFrame "x")) "x" "dup" =
      List.replicate 120 (createBlankFrame "x") :=
  capacity_noop (List.replicate 120 (createBlankFrame "x")) "new" "x" "dup"
    (by simp [MAX_FRAMES])

/-- C3 counterexample: the claim says every sample of a blank frame is
initialized to 255 ("white"); in fact `new Uint8ClampedArray(...)`
zero-initializes, so every sample is 0. -/
theorem createBlankFrame_not_white :
    ¬ ∀ v ∈ (createBlankFrame "frame-0").data, v = 255 := by
  intro h
  exact absurd (h 0 (by decide)) (by decide)

/-- C3 amended: `createBlankFrame` always returns a frame whose pixel
buffer has `width * height` samples all initialized to 0 (black, the
minimum sample value), carrying the freshly generated id; it never
fails. -/
theorem createBlankFrame_spec (id : String) :
    (createBlankFrame id).width = OUTPUT_WIDTH ∧
    (createBlankFrame id).height = OUTPUT_HEIGHT ∧
    (createBlankFrame id).data.length =
      (createBlankFrame id).width * (createBlankFrame id).height ∧
    (createBlankFrame id).id = id ∧
    ∀ v ∈ (createBlankFrame id).data, v = 0 :=
  ⟨rfl, rfl, by simp [createBlankFrame], rfl,
   fun _ hv => List.eq_of_mem_replicate hv⟩

/-- C3 amended witness: the amended statement evaluated at a concrete
id. -/
theorem createBlankFrame_spec_witness :
    (createBlankFrame "b").width = OUTPUT_WIDTH ∧
    (createBlankFrame "b").height = OUTPUT_HEIGHT ∧
    (createBlankFrame "b").data.length =
      (createBlankFrame "b").width * (createBlankFrame "b").height ∧
    (createBlankFrame "b").id = "b" ∧
    ∀ v ∈ (createBlankFrame "b").data, v = 0 :=
  createBlankFrame_spec "b"

/-- C10: hydrating persisted frames always restores the binary invariant:
every returned frame has exactly `width * height` samples, each 0 or 255;
a stored 0 stays 0 and every other or missing stored value becomes 255. -/
theorem hydrateFrames_binary (frames : List PersistedFrame) (g : BinaryFrame)
    (hg : g ∈ hydrateFrames frames) :
    g.data.length = g.width * g.height ∧
    (∀ v ∈ g.data, v = 0 ∨ v = 255) ∧
    ∃ f ∈ frames, g.id = f.id ∧ g.width = f.width ∧ g.height = f.height ∧
      ∀ i < f.width * f.height,
        g.data.get? i = some (if f.data.get? i = some 0 then 0 else 255) := by
  rw [hydrateFrames] at hg
  by_cases he : frames.isEmpty
  · simp [he] at hg
  · simp [he, List.mem_map] at hg
    obtain ⟨f, hf, rfl⟩ := hg
    refine ⟨by simp [hydrateOne], ?_, f, hf, rfl, rfl, rfl, ?_⟩
    · intro v hv
      simp only [hydrateOne, List.mem_map] at hv
      obtain ⟨i, _, rfl⟩ := hv
      split <;> simp
    · intro i hi
      simp [hydrateOne, List.getElem?_map, List.getElem?_range, hi]

/-- C10 witness: a persisted frame with a stored 0, a stray value 7, and a
missing third sample hydrates to `[0, 255, 255]`. -/
theorem hydrateFrames_binary_witness :
    (hydrateOne ⟨"a", 1, 3, [0, 7]⟩).data.length =
      (hydrateOne ⟨"a", 1, 3, [0, 7]⟩).width * (hydrateOne ⟨"a", 1, 3, [0, 7]⟩).height ∧
    (∀ v ∈ (hydrateOne ⟨"a", 1, 3, [0, 7]⟩).data, v = 0 ∨ v = 255) ∧
    ∃ f ∈ [(⟨"a", 1, 3, [0, 7]⟩ : PersistedFrame)],
      (hydrateOne ⟨"a", 1, 3, [0, 7]⟩).id = f.id ∧
      (hydrateOne ⟨"a", 1, 3, [0, 7]⟩).width = f.width ∧
      (hydrateOne ⟨"a", 1, 3, [0, 7]⟩).height = f.height ∧
      ∀ i < f.width * f.height,
        (hydrateOne ⟨"a", 1, 3, [0, 7]⟩).data.get? i =
          some (if f.data.get? i = some 0 then 0 else 255) :=
  hydrateFrames_binary [⟨"a", 1, 3, [0, 7]⟩] (hydrateOne ⟨"a", 1, 3, [0, 7]⟩)
    (by decide)

/-- One pixel of `thresholdFrame`, compared against the spec's
`base` / `255 - base` formulation. -/
theorem thresholdPixel_eq (threshold : ℚ) (invertOutput : Bool) (r g b : ℚ) :
    (if invertOutput then
      (if (if threshold ≤ 0.299 * r + 0.587 * g + 0.114 * b then (0 : Nat) else 255) = 0
        then (255 : Nat) else 0)
     else (if threshold ≤ 0.299 * r + 0.587 * g + 0.114 * b then (0 : Nat) else 255)) =
    (if invertOutput then
      255 - (if 0.299 * r + 0.587 * g + 0.114 * b ≥ threshold then (0 : Nat) else 255)
     else (if 0.299 * r + 0.587 * g + 0.114 * b ≥ threshold then (0 : Nat) else 255)) := by
  by_cases hb : threshold ≤ 0.299 * r + 0.587 * g + 0.114 * b <;>
    cases invertOutput <;> simp [hb, ge_iff_le]

/-- One pixel of `thresholdFrame` is 0 or 255. -/
theorem thresholdPixel_binary (threshold : ℚ) (invertOutput : Bool) (r g b : ℚ) :
    (if invertOutput then
      (if (if threshold ≤ 0.299 * r + 0.587 * g + 0.114 * b then (0 : Nat) else 255) = 0
        then (255 : Nat) else 0)
     else (if threshold ≤ 0.299 * r + 0.587 * g + 0.114 * b then (0 : Nat) else 255)) = 0 ∨
    (if invertOutput then
      (if (if threshold ≤ 0.299 * r + 0.587 * g + 0.114 * b then (0 : Nat) else 255) = 0
        then (255 : Nat) else 0)
     else (if threshold ≤ 0.299 * r + 0.587 * g + 0.114 * b then (0 : Nat) else 255)) = 255 := by
  by_cases hb : threshold ≤ 0.299 * r + 0.587 * g + 0.114 * b <;>
    cases invertOutput <;> simp [hb]

/-- C2: the threshold step computes `gray = 0.299*r + 0.587*g + 0.114*b`
from the selected pixel's RGB (alpha ignored), stores `base = 0` when
`gray >= threshold` else 255, and `255 - base` when inverting; every output
sample is exactly 0 or 255 for any threshold in [0, 255] and any invert
flag. -/
theorem thresholdFrame_spec (threshold : ℚ) (invertOutput : Bool)
    (imageData : ImageData) (h0 : 0 ≤ threshold) (h255 : threshold ≤ 255) :
    (thresholdFrame threshold invertOutput imageData).length =
      imageData.width * imageData.height ∧
    (∀ idx < imageData.width * imageData.height,
      (thresholdFrame threshold invertOutput imageData).get? idx =
        some (
          let gray : ℚ := 0.299 * (imageData.data.getD (4 * idx) 0 : ℚ) +
            0.587 * (imageData.data.getD (4 * idx + 1) 0 : ℚ) +
            0.114 * (imageData.data.getD (4 * idx + 2) 0 : ℚ)
          let base : Nat := if gray ≥ threshold then 0 else 255
          if invertOutput then 255 - base else base)) ∧
    ∀ v ∈ thresholdFrame threshold invertOutput imageData, v = 0 ∨ v = 255 := by
  refine ⟨by simp [thresholdFrame], ?_, ?_⟩
  · intro idx hidx
    have hrange : (List.range (imageData.width * imageData.height)).get? idx
        = some idx := by
      simp [List.getElem?_range, hidx]
    simp only [thresholdFrame, List.get?_map, hrange, Option.map_some]
    exact congrArg some (thresholdPixel_eq threshold invertOutput _ _ _)
  · intro v hv
    simp only [thresholdFrame, List.mem_map] at hv
    obtain ⟨idx, _, rfl⟩ := hv
    exact thresholdPixel_binary threshold invertOutput _ _ _

/-- C2 witness: a single mid-gray pixel at threshold 128, without and with
inversion. -/
theorem thresholdFrame_spec_witness :
    ((thresholdFrame 128 false ⟨1, 1, [128, 128, 128, 255]⟩).length = 1 * 1 ∧
      (∀ idx < 1 * 1,
        (thresholdFrame 128 false ⟨1, 1, [128, 128, 128, 255]⟩).get? idx =
          some (
            let gray : ℚ := 0.299 * (([128, 128, 128, 255].getD (4 * idx) 0 : Nat) : ℚ) +
              0.587 * (([128, 128, 128, 255].getD (4 * idx + 1) 0 : Nat) : ℚ) +
              0.114 * (([128, 128, 128, 255].getD (4 * idx + 2) 0 : Nat) : ℚ)
            let base : Nat := if gray ≥ 128 then 0 else 255
            if false = true then 255 - base else base)) ∧
      ∀ v ∈ thresholdFrame 128 false ⟨1, 1, [128, 128, 128, 255]⟩,
        v = 0 ∨ v = 255) ∧
    ∀ v ∈ thresholdFrame 128 true ⟨1, 1, [128, 128, 128, 255]⟩,
      v = 0 ∨ v = 255 :=
  ⟨thresholdFrame_spec 128 false ⟨1, 1, [128, 128, 128, 255]⟩
      (by norm_num) (by norm_num),
   (thresholdFrame_spec 128 true ⟨1, 1, [128, 128, 128, 255]⟩
      (by norm_num) (by norm_num)).2.2⟩

/-! ## Base64 round-trip -/

/-- Decoding an alphabet character recovers the encoded sextet. -/
theorem charToSextet_sextetToChar : ∀ s < 64,
    charToSextet (sextetToChar s) = some s := by decide

/-- No alphabet character is the padding character. -/
theorem sextetToChar_ne_pad : ∀ s < 64, sextetToChar s ≠ '=' := by decide

/-- `atob` inverts `btoa`: decoding an encoded byte list (all bytes below
256) recovers it exactly. -/
theorem decodeChunks_encodeChunks :
    ∀ bytes : List Nat, (∀ b ∈ bytes, b < 256) →
      decodeChunks (encodeChunks bytes) = some bytes := by
  intro bytes
  induction bytes using encodeChunks.induct with
  | case1 b0 b1 b2 rest ih =>
      intro hb
      have hb0 : b0 < 256 := hb b0 (by simp)
      have hb1 : b1 < 256 := hb b1 (by simp)
      have hb2 : b2 < 256 := hb b2 (by simp)
      have ihr := ih (fun b hbm => hb b (by simp [hbm]))
      have e0 := charToSextet_sextetToChar (b0 / 4) (by omega)
      have e1 := charToSextet_sextetToChar (b0 % 4 * 16 + b1 / 16) (by omega)
      have e2 := charToSextet_sextetToChar (b1 % 16 * 4 + b2 / 64) (by omega)
      have e3 := charToSextet_sextetToChar (b2 % 64) (by omega)
      have n2 : sextetToChar (b1 % 16 * 4 + b2 / 64) ≠ '=' :=
        sextetToChar_ne_pad _ (by omega)
      have n3 : sextetToChar (b2 % 64) ≠ '=' := sextetToChar_ne_pad _ (by omega)
      simp [encodeChunks, decodeChunks, e0, e1, e2, e3, n2, n3, ihr]
      omega
  | case2 b0 b1 =>
      intro hb
      have hb0 : b0 < 256 := hb b0 (by simp)
      have hb1 : b1 < 256 := hb b1 (by simp)
      have e0 := charToSextet_sextetToChar (b0 / 4) (by omega)
      have e1 := charToSextet_sextetToChar (b0 % 4 * 16 + b1 / 16) (by omega)
      have e2 := charToSextet_sextetToChar (b1 % 16 * 4) (by omega)
      have n2 : sextetToChar (b1 % 16 * 4) ≠ '=' :=
        sextetToChar_ne_pad _ (by omega)
      simp [encodeChunks, decodeChunks, e0, e1, e2, n2]
      omega
  | case3 b0 =>
      intro hb
      have hb0 : b0 < 256 := hb b0 (by simp)
      have e0 := charToSextet_sextetToChar (b0 / 4) (by omega)
      have e1 := charToSextet_sextetToChar (b0 % 4 * 16) (by omega)
      simp [encodeChunks, decodeChunks, e0, e1]
      omega
  | case4 =>
      intro _
      rfl

/-! ## Bit-packing round-trip -/

/-- Every `getD` read of an all-zero buffer is 0 (in or out of range). -/
theorem getD_replicate_zero (m k : Nat) :
    (List.replicate m (0 : Nat)).getD k 0 = 0 := by
  by_cases h : k < m <;>
    simp [List.getD_eq_getElem?_getD, List.getElem?_replicate, h]

/-- Invariant of the `packFrameData` loop after its first `n` iterations:
the byte buffer keeps its length, every byte stays below 256, and bit `b`
of byte `k` is set exactly when the already-visited sample `8*k + b` is
black. -/
theorem packFold_spec (data : List Nat) (total : Nat) :
    ∀ n, n ≤ total →
      ((List.range n).foldl
        (fun bytes i =>
          if data.get? i = some 0 then
            bytes.set (i / 8) (bytes.getD (i / 8) 0 ||| (1 <<< (i % 8)))
          else bytes)
        (List.replicate ((total + 7) / 8) 0)).length = (total + 7) / 8 ∧
      ∀ k,
        ((List.range n).foldl
          (fun bytes i =>
            if data.get? i = some 0 then
              bytes.set (i / 8) (bytes.getD (i / 8) 0 ||| (1 <<< (i % 8)))
            else bytes)
          (List.replicate ((total + 7) / 8) 0)).getD k 0 < 256 ∧
        ∀ b, b < 8 →
          (((List.range n).foldl
            (fun bytes i =>
              if data.get? i = some 0 then
                bytes.set (i / 8) (bytes.getD (i / 8) 0 ||| (1 <<< (i % 8)))
              else bytes)
            (List.replicate ((total + 7) / 8) 0)).getD k 0).testBit b =
            decide (8 * k + b < n ∧ data.get? (8 * k + b) = some 0) := by
  intro n
  induction n with
  | zero =>
      intro _
      refine ⟨by simp, fun k => ⟨?_, fun b hb => ?_⟩⟩
      · rw [List.range_zero, List.foldl_nil, getD_replicate_zero]; omega
      · rw [List.range_zero, List.foldl_nil, getD_replicate_zero]
        simp
  | succ m ih =>
      intro hm1
      obtain ⟨ihlen, ihk⟩ := ih (by omega)
      simp only [List.range_succ, List.foldl_append, List.foldl_cons,
        List.foldl_nil]
      by_cases hm : data.get? m = some 0
      · rw [if_pos hm]
        have hidx : m / 8 < (total + 7) / 8 := by omega
        have hidx' : m / 8 <
            ((List.range m).foldl
              (fun bytes i =>
                if data.get? i = some 0 then
                  bytes.set (i / 8) (bytes.getD (i / 8) 0 ||| (1 <<< (i % 8)))
                else bytes)
              (List.replicate ((total + 7) / 8) 0)).length := by
          rw [ihlen]; exact hidx
        refine ⟨by rw [List.length_set, ihlen], fun k => ?_⟩
        by_cases hk : k = m / 8
        · subst hk
          have hget : ((((List.range m).foldl
                (fun bytes i =>
                  if data.get? i = some 0 then
                    bytes.set (i / 8) (bytes.getD (i / 8) 0 ||| (1 <<< (i % 8)))
                  else bytes)
                (List.replicate ((total + 7) / 8) 0))).set (m / 8)
                  (((List.range m).foldl
                    (fun bytes i =>
                      if data.get? i = some 0 then
                        bytes.set (i / 8) (bytes.getD (i / 8) 0 ||| (1 <<< (i % 8)))
                      else bytes)
                    (List.replicate ((total + 7) / 8) 0)).getD (m / 8) 0 |||
                    (1 <<< (m % 8)))).getD (m / 8) 0 =
              ((List.range m).foldl
                (fun bytes i =>
                  if data.get? i = some 0 then
                    bytes.set (i / 8) (bytes.getD (i / 8) 0 ||| (1 <<< (i % 8)))
                  else bytes)
                (List.replicate ((total + 7) / 8) 0)).getD (m / 8) 0 |||
                (1 <<< (m % 8)) := by
            rw [List.getD_eq_getElem?_getD, List.getElem?_set_self hidx']
            rfl
          rw [hget]
          constructor
          · have h256 : (256 : Nat) = 2 ^ 8 := by norm_num
            have hsh : (1 <<< (m % 8)) < 2 ^ 8 := by
              rw [Nat.one_shiftLeft]
              exact Nat.pow_lt_pow_right (by norm_num) (Nat.mod_lt _ (by norm_num))
            rw [h256]
            exact Nat.or_lt_two_pow (h256 ▸ (ihk (m / 8)).1) hsh
          · intro b hb
            rw [Nat.testBit_or, (ihk (m / 8)).2 b hb, Nat.one_shiftLeft]
            by_cases hbm : b = m % 8
            · subst hbm
              have h8 : 8 * (m / 8) + m % 8 = m := by omega
              rw [Nat.testBit_two_pow_self]
              simp only [Bool.or_true]
              symm
              rw [decide_eq_true_eq]
              exact ⟨by omega, by rw [h8]; exact hm⟩
            · rw [Nat.testBit_two_pow_of_ne (by omega)]
              have hne : 8 * (m / 8) + b ≠ m := by omega
              simp only [Bool.or_false]
              refine decide_eq_decide.mpr ?_
              constructor
              · rintro ⟨h1, h2⟩; exact ⟨by omega, h2⟩
              · rintro ⟨h1, h2⟩
                refine ⟨?_, h2⟩
                omega
        · have hget : ∀ v, (((List.range m).foldl
                (fun bytes i =>
                  if data.get? i = some 0 then
                    bytes.set (i / 8) (bytes.getD (i / 8) 0 ||| (1 <<< (i % 8)))
                  else bytes)
                (List.replicate ((total + 7) / 8) 0)).set (m / 8) v).getD k 0 =
              ((List.range m).foldl
                (fun bytes i =>
                  if data.get? i = some 0 then
                    bytes.set (i / 8) (bytes.getD (i / 8) 0 ||| (1 <<< (i % 8)))
                  else bytes)
                (List.replicate ((total + 7) / 8) 0)).getD k 0 := by
            intro v
            rw [List.getD_eq_getElem?_getD, List.getD_eq_getElem?_getD,
              List.getElem?_set_ne (fun h => hk h.symm)]
          rw [hget]
          refine ⟨(ihk k).1, fun b hb => ?_⟩
          rw [(ihk k).2 b hb]
          have hne : 8 * k + b ≠ m := by omega
          refine decide_eq_decide.mpr ?_
          constructor
          · rintro ⟨h1, h2⟩; exact ⟨by omega, h2⟩
          · rintro ⟨h1, h2⟩; exact ⟨by omega, h2⟩
      · rw [if_neg hm]
        refine ⟨ihlen, fun k => ⟨(ihk k).1, fun b hb => ?_⟩⟩
        rw [(ihk k).2 b hb]
        refine decide_eq_decide.mpr ?_
        constructor
        · rintro ⟨h1, h2⟩; exact ⟨by omega, h2⟩
        · rintro ⟨h1, h2⟩
          refine ⟨?_, h2⟩
          rcases Nat.lt_succ_iff_lt_or_eq.mp h1 with h | h
          · exact h
          · exact absurd (h ▸ h2) hm

/-- Every byte produced by `packBytes` is below 256. -/
theorem packBytes_lt (data : List Nat) (total : Nat) :
    ∀ x ∈ packBytes data total, x < 256 := by
  intro x hx
  rw [packBytes] at hx
  obtain ⟨k, hk, rfl⟩ := List.mem_iff_getElem.mp hx
  have h := ((packFold_spec data total total le_rfl).2 k).1
  rwa [List.getD_eq_getElem?_getD, List.getElem?_eq_getElem hk,
    Option.getD_some] at h

/-- Unpacking inverts packing for binary pixel data of full length. -/
theorem unpackBytes_packBytes (data : List Nat) (total : Nat)
    (hlen : data.length = total) (hbin : ∀ v ∈ data, v = 0 ∨ v = 255) :
    unpackBytes (packBytes data total) total = data := by
  apply List.ext_getElem
  · simp [unpackBytes, hlen]
  intro i h1 h2
  have hi : i < total := by simpa [unpackBytes] using h1
  have hb : i % 8 < 8 := Nat.mod_lt _ (by norm_num)
  have hspec := ((packFold_spec data total total le_rfl).2 (i / 8)).2 (i % 8) hb
  have h8 : 8 * (i / 8) + i % 8 = i := by omega
  rw [h8] at hspec
  have hcond : (((packBytes data total).getD (i / 8) 0 >>> (i % 8)) &&& 1 = 1) ↔
      (i < total ∧ data.get? i = some 0) := by
    rw [Nat.and_one_is_mod, Nat.shiftRight_eq_div_pow,
      ← decide_eq_true_eq (p := (packBytes data total).getD (i / 8) 0 / 2 ^ (i % 8) % 2 = 1),
      ← Nat.testBit_to_div_mod]
    rw [packBytes, hspec, decide_eq_true_eq]
  have hgi : data.get? i = some data[i] := by
    rw [List.get?_eq_getElem?, List.getElem?_eq_getElem (by omega)]
  simp only [unpackBytes, List.getElem_map, List.getElem_range]
  by_cases hz : data.get? i = some 0
  · rw [if_pos (hcond.mpr ⟨hi, hz⟩)]
    rw [hgi] at hz
    exact (Option.some.injEq _ _ ▸ hz).symm
  · rw [if_neg (fun hc => hz (hcond.mp hc).2)]
    have hmem : data[i] ∈ data := List.getElem_mem _
    rcases hbin _ hmem with h0 | h255
    · exact absurd (by rw [hgi, h0]) hz
    · exact h255.symm

/-- `unpackFrameData ∘ packFrameData` is the identity on a frame's binary
pixel data. -/
theorem unpack_pack_frame (f : BinaryFrame)
    (hlen : f.data.length = f.width * f.height)
    (hbin : ∀ v ∈ f.data, v = 0 ∨ v = 255) :
    unpackFrameData (packFrameData f) f.width f.height = .ok f.data := by
  rw [unpackFrameData, packFrameData, fromBase64, toBase64]
  rw [show (String.mk (encodeChunks (packBytes f.data (f.width * f.height)))).toList
      = encodeChunks (packBytes f.data (f.width * f.height)) from rfl]
  rw [decodeChunks_encodeChunks _ (packBytes_lt _ _)]
  exact congrArg Except.ok (unpackBytes_packBytes _ _ hlen hbin)

/-- `Except.bind` on a success reduces to the continuation. -/
theorem except_ok_bind {e a b : Type} (x : a) (f : a → Except e b) :
    (Except.ok x : Except e a).bind f = f x := rfl

/-- `List.enum` is `List.enumFrom 0`. -/
theorem enum_eq_enumFrom (l : List PackedFrame) : l.enum = l.enumFrom 0 := rfl

/-- Decoding the packed payloads of an encoded uniform sequence succeeds
and reproduces every frame's dimensions and pixel data (ids are fresh). -/
theorem mapM_unpack (w h : Nat) (frames : List BinaryFrame) (n : Nat)
    (hdim : ∀ f ∈ frames, f.width = w ∧ f.height = h)
    (hlen : ∀ f ∈ frames, f.data.length = f.width * f.height)
    (hbin : ∀ f ∈ frames, ∀ v ∈ f.data, v = 0 ∨ v = 255) :
    ∃ out : List BinaryFrame,
      ((frames.map (fun frame =>
          (⟨packFrameData frame⟩ : PackedFrame))).enumFrom n).mapM
        (fun pair => do
          let data ← unpackFrameData pair.2.data w h
          pure { id := toString pair.1, width := w, height := h,
                 data := data : BinaryFrame }) =
        (Except.ok out : Except CodecError (List BinaryFrame)) ∧
      out.map (fun f => (f.width, f.height, f.data)) =
        frames.map (fun f => (w, h, f.data)) := by
  induction frames generalizing n with
  | nil => exact ⟨[], rfl, rfl⟩
  | cons f rest ih =>
      obtain ⟨hw0, hh0⟩ := hdim f (by simp)
      have hf : unpackFrameData (packFrameData f) w h = .ok f.data := by
        rw [← hw0, ← hh0]
        exact unpack_pack_frame f (hlen f (by simp)) (hbin f (by simp))
      obtain ⟨out, hout, hproj⟩ := ih (n + 1)
        (fun g hg => hdim g (by simp [hg]))
        (fun g hg => hlen g (by simp [hg]))
        (fun g hg => hbin g (by simp [hg]))
      refine ⟨{ id := toString n, width := w, height := h, data := f.data } ::
        out, ?_, ?_⟩
      · simp only [List.map_cons, List.enumFrom_cons, List.mapM_cons, hf, hout]
        rfl
      · simp [hproj]

/-- C1 amended: for every non-empty list of binary frames all sharing one
positive width and height, decoding the encoded file reproduces the frame
count, the shared width and height on every frame, and the pixel data of
every frame in order (ids are fresh; the encoded speed is passed
through). -/
theorem encode_decode_roundtrip (frames : List BinaryFrame)
    (speed : Option Int) (w h : Nat) (hne : frames ≠ []) (hw : w ≠ 0)
    (hh : h ≠ 0) (hdim : ∀ f ∈ frames, f.width = w ∧ f.height = h)
    (hlen : ∀ f ∈ frames, f.data.length = f.width * f.height)
    (hbin : ∀ f ∈ frames, ∀ v ∈ f.data, v = 0 ∨ v = 255) :
    ∃ out, (framesToFile frames speed).bind fileToFrames =
        Except.ok (out, speed) ∧
      out.length = frames.length ∧
      out.map (fun f => (f.width, f.height, f.data)) =
        frames.map (fun f => (w, h, f.data)) := by
  obtain ⟨f0, rest, rfl⟩ := List.exists_cons_of_ne_nil hne
  obtain ⟨hw0, hh0⟩ := hdim f0 (by simp)
  obtain ⟨out, hout, hproj⟩ :=
    mapM_unpack w h (f0 :: rest) 0 hdim hlen hbin
  refine ⟨out, ?_, ?_, hproj⟩
  · rw [framesToFile]
    simp only [hw0, hh0, if_neg hw, if_neg hh]
    rw [except_ok_bind, fileToFrames]
    rw [if_neg (show ¬((1 : Nat) ≠ 1) by norm_num)]
    simp only [if_neg hw, if_neg hh]
    show (List.mapM (fun (pair : Nat × PackedFrame) => do
        let data ← unpackFrameData pair.2.data w h
        pure { id := toString pair.1, width := w, height := h,
               data := data : BinaryFrame })
      (List.enumFrom 0 (List.map (fun frame =>
        ({ data := packFrameData frame } : PackedFrame)) (f0 :: rest)))).bind
        (fun hydrated => pure (hydrated, speed)) = Except.ok (out, speed)
    rw [hout]
    rfl
  · have := congrArg List.length hproj
    simpa using this

/-- C1 witness: the round-trip at a concrete one-frame 1×8 sequence. -/
theorem encode_decode_roundtrip_witness :
    ∃ out, (framesToFile [⟨"a", 1, 8, List.replicate 8 255⟩] none).bind
        fileToFrames = Except.ok (out, none) ∧
      out.length = [(⟨"a", 1, 8, List.replicate 8 255⟩ : BinaryFrame)].length ∧
      out.map (fun f => (f.width, f.height, f.data)) =
        [(⟨"a", 1, 8, List.replicate 8 255⟩ : BinaryFrame)].map
          (fun f => (1, 8, f.data)) :=
  encode_decode_roundtrip [⟨"a", 1, 8, List.replicate 8 255⟩] none 1 8
    (by decide) (by decide) (by decide) (by decide) (by decide) (by decide)

set_option maxRecDepth 10000 in
/-- C1 counterexample: without the FrameSequence invariant that all frames
share one width/height, the round-trip fails — the encoder takes the
header size from the first frame and the decoder applies it to every
frame, so a second frame of a different size comes back resized. -/
theorem encode_decode_roundtrip_cex :
    ((framesToFile [⟨"a", 1, 8, List.replicate 8 255⟩,
        ⟨"b", 2, 8, List.replicate 16 0⟩] none).bind fileToFrames).map
      (fun out => out.1.map (fun f => (f.width, f.height, f.data))) ≠
    Except.ok [(1, 8, List.replicate 8 255), (2, 8, List.replicate 16 0)] := by
  decide

/-- C4 amended: decoding checks the version first — every file with
`version ≠ 1` fails with UnsupportedVersion (even when its frame list is
also absent or empty); every version-1 file whose frame list is absent or
empty fails with EmptyFrameList.  Both checks run before any frame data is
produced. -/
theorem fileToFrames_validation (file : FrameFile) :
    (file.version ≠ 1 → fileToFrames file = .error .unsupportedVersion) ∧
    (file.version = 1 → (file.frames = none ∨ file.frames = some []) →
      fileToFrames file = .error .emptyFrameList) := by
  constructor
  · intro hv
    rw [fileToFrames, if_pos hv]
  · intro hv hf
    rw [fileToFrames, if_neg (by simp [hv])]
    rcases hf with hf | hf <;> rw [hf]

/-- C4 witness: version-2 files are rejected as UnsupportedVersion; a
version-1 file with an absent frame list is rejected as EmptyFrameList. -/
theorem fileToFrames_validation_witness :
    fileToFrames ⟨2, 48, 11, none, some [⟨"AA=="⟩]⟩ =
      .error .unsupportedVersion ∧
    fileToFrames ⟨1, 48, 11, none, none⟩ = .error .emptyFrameList :=
  ⟨(fileToFrames_validation ⟨2, 48, 11, none, some [⟨"AA=="⟩]⟩).1 (by decide),
   (fileToFrames_validation ⟨1, 48, 11, none, none⟩).2 rfl (Or.inl rfl)⟩

/-- C4 counterexample: a file that has the wrong version and an empty
frame list at once fails with UnsupportedVersion — not EmptyFrameList as
the claim's unconditional second half asserts. -/
theorem fileToFrames_order_cex :
    fileToFrames ⟨2, 48, 11, none, some []⟩ =
      Except.error CodecError.unsupportedVersion ∧
    fileToFrames ⟨2, 48, 11, none, some []⟩ ≠
      Except.error CodecError.emptyFrameList :=
  ⟨rfl, by decide⟩

/-- If every payload in the frame list is valid base64, the decoder's
`mapM` over the enumerated payloads succeeds. -/
theorem mapM_unpack_isSome (w h : Nat) (l : List PackedFrame) :
    ∀ n : Nat, (∀ p ∈ l, (fromBase64 p.data).isSome) →
      ∃ out, (l.enumFrom n).mapM (fun pair => do
          let data ← unpackFrameData pair.2.data w h
          pure { id := toString pair.1, width := w, height := h,
                 data := data : BinaryFrame }) =
        (Except.ok out : Except CodecError (List BinaryFrame)) := by
  induction l with
  | nil => exact fun n _ => ⟨[], rfl⟩
  | cons p rest ih =>
      intro n hall
      obtain ⟨bytes, hb⟩ := Option.isSome_iff_exists.mp (hall p (by simp))
      obtain ⟨out, hout⟩ := ih (n + 1) (fun q hq => hall q (by simp [hq]))
      refine ⟨{ id := toString n, width := w, height := h,
                data := unpackBytes bytes (w * h) } :: out, ?_⟩
      simp only [List.enumFrom_cons, List.mapM_cons, hout]
      rw [show unpackFrameData p.data w h = .ok (unpackBytes bytes (w * h)) by
        rw [unpackFrameData, hb]]
      rfl

/-- C6 amended: the decoder performs no payload-length validation.  A
version-1 file with a non-empty frame list whose payloads are valid
base64 always decodes successfully — even when a payload has fewer bytes
than `ceil(width*height/8)` — and every sample whose byte index lies
beyond the payload decodes to 255 (white), because a missing byte reads
as 0. -/
theorem truncated_payload_decodes (file : FrameFile) (l : List PackedFrame)
    (h1 : file.version = 1) (h2 : file.frames = some l) (h3 : l ≠ [])
    (h4 : ∀ p ∈ l, (fromBase64 p.data).isSome)
    (w h : Nat) (packed : String) (bytes : List Nat)
    (hpp : fromBase64 packed = some bytes) (i : Nat) (hi : i < w * h)
    (htr : bytes.length ≤ i / 8) :
    (fileToFrames file).isOk = true ∧
    unpackFrameData packed w h = .ok (unpackBytes bytes (w * h)) ∧
    (unpackBytes bytes (w * h)).get? i = some 255 := by
  refine ⟨?_, ?_, ?_⟩
  · obtain ⟨p0, rest, hl⟩ := List.exists_cons_of_ne_nil h3
    subst hl
    obtain ⟨out, hout⟩ := mapM_unpack_isSome
      (if file.width = 0 then OUTPUT_WIDTH else file.width)
      (if file.height = 0 then OUTPUT_HEIGHT else file.height)
      (p0 :: rest) 0 h4
    have hok : fileToFrames file = Except.ok (out, file.speed) := by
      rw [fileToFrames, if_neg (by simp [h1]), h2]
      show (List.mapM (fun (pair : Nat × PackedFrame) => do
          let data ← unpackFrameData pair.2.data
            (if file.width = 0 then OUTPUT_WIDTH else file.width)
            (if file.height = 0 then OUTPUT_HEIGHT else file.height)
          pure { id := toString pair.1,
                 width := if file.width = 0 then OUTPUT_WIDTH else file.width,
                 height := if file.height = 0 then OUTPUT_HEIGHT else file.height,
                 data := data : BinaryFrame })
        (List.enumFrom 0 (p0 :: rest))).bind
          (fun hydrated => pure (hydrated, file.speed)) =
        Except.ok (out, file.speed)
      rw [hout]
      rfl
    rw [hok]
    rfl
  · rw [unpackFrameData, hpp]
  · have hgd : bytes[i / 8]?.getD 0 = 0 := by
      rw [List.getElem?_eq_none (by omega)]
      rfl
    rw [unpackBytes, List.get?_eq_getElem?, List.getElem?_map]
    rw [List.getElem?_range hi]
    simp [hgd]

/-- C6 witness: the concrete version-1 file whose single payload is the
empty byte string (0 bytes against the 66 required for 48×11) decodes
fine, with sample 0 white. -/
theorem truncated_payload_decodes_witness :
    (fileToFrames ⟨1, 48, 11, none, some [⟨""⟩]⟩).isOk = true ∧
    unpackFrameData "" 48 11 = .ok (unpackBytes [] (48 * 11)) ∧
    (unpackBytes [] (48 * 11)).get? 0 = some 255 :=
  truncated_payload_decodes ⟨1, 48, 11, none, some [⟨""⟩]⟩ [⟨""⟩] rfl rfl
    (by decide) (by decide) 48 11 "" [] rfl 0 (by decide) (by decide)

set_option maxRecDepth 10000 in
/-- C6 counterexample: the truncated file above does not fail at all — it
decodes to one full-size all-white frame, so no MalformedPayload error is
raised (no such error kind even exists in the codec). -/
theorem malformed_payload_cex :
    fileToFrames ⟨1, 48, 11, none, some [⟨""⟩]⟩ =
      Except.ok ([{ id := "0", width := 48, height := 11,
                    data := List.replicate 528 255 }], none) := by
  decide

/-- Every blit step of the sprite fold succeeds when each frame's buffer
matches its declared size. -/
theorem foldlM_blit_ok (width : Nat) (frames : List BinaryFrame) :
    ∀ (n : Nat) (canvas : List Nat),
      (∀ f ∈ frames, f.data.length = f.width * f.height) →
      ∃ r, List.foldlM (fun canvas pair =>
          if pair.2.data.length = pair.2.width * pair.2.height then
            Except.ok (putImageData canvas width pair.2 (pair.1 * OUTPUT_WIDTH))
          else Except.error SpriteError.invalidImageData) canvas
          (frames.enumFrom n) =
        (Except.ok r : Except SpriteError (List Nat)) := by
  induction frames with
  | nil => exact fun n canvas _ => ⟨canvas, rfl⟩
  | cons f rest ih =>
      intro n canvas hall
      obtain ⟨r, hr⟩ := ih (n + 1) (putImageData canvas width f (n * OUTPUT_WIDTH))
        (fun g hg => hall g (by simp [hg]))
      refine ⟨r, ?_⟩
      simp only [List.enumFrom_cons, List.foldlM_cons, if_pos (hall f (by simp))]
      exact hr

/-- C5 amended: `renderFramesToSpritePNG` fails with the empty-sequence
error on no frames, and on `n ≥ 1` well-formed frames returns a sprite
with `frameCount = n`, `width = OUTPUT_WIDTH * n = 48 * n` and
`height = OUTPUT_HEIGHT = 11` — the configured output dimensions, which
equal `w*n × h` exactly when the frames have the canonical size 48×11. -/
theorem renderSprite_geometry (frames : List BinaryFrame)
    (hlen : ∀ f ∈ frames, f.data.length = f.width * f.height) :
    (frames = [] → renderFramesToSpritePNG frames = .error .noFrames) ∧
    (frames ≠ [] → ∃ s, renderFramesToSpritePNG frames = .ok s ∧
      s.frameCount = frames.length ∧
      s.width = OUTPUT_WIDTH * frames.length ∧ s.height = OUTPUT_HEIGHT) := by
  constructor
  · intro hf
    subst hf
    rfl
  · intro hne
    obtain ⟨r, hr⟩ := foldlM_blit_ok (OUTPUT_WIDTH * frames.length) frames 0
      (List.replicate (OUTPUT_WIDTH * frames.length * OUTPUT_HEIGHT) 0) hlen
    refine ⟨⟨r, frames.length, OUTPUT_WIDTH * frames.length, OUTPUT_HEIGHT⟩,
      ?_, rfl, rfl, rfl⟩
    rw [renderFramesToSpritePNG,
      if_neg (by simp [List.isEmpty_iff, hne])]
    show (List.foldlM (fun canvas pair =>
        if pair.2.data.length = pair.2.width * pair.2.height then
          Except.ok (putImageData canvas (OUTPUT_WIDTH * frames.length) pair.2
            (pair.1 * OUTPUT_WIDTH))
        else Except.error SpriteError.invalidImageData)
        (List.replicate (OUTPUT_WIDTH * frames.length * OUTPUT_HEIGHT) 0)
        (List.enumFrom 0 frames)).bind (fun raster =>
          (pure { raster := raster, frameCount := frames.length,
                  width := OUTPUT_WIDTH * frames.length,
                  height := OUTPUT_HEIGHT } :
            Except SpriteError RenderedSprite)) =
      Except.ok (⟨r, frames.length, OUTPUT_WIDTH * frames.length,
        OUTPUT_HEIGHT⟩ : RenderedSprite)
    rw [hr]
    rfl

set_option maxRecDepth 10000 in
/-- C5 witness: one canonical 48×11 blank frame renders to a 48×11
sprite. -/
theorem renderSprite_geometry_witness :
    ([createBlankFrame "w"] = [] →
      renderFramesToSpritePNG [createBlankFrame "w"] = .error .noFrames) ∧
    ([createBlankFrame "w"] ≠ [] → ∃ s,
      renderFramesToSpritePNG [createBlankFrame "w"] = .ok s ∧
      s.frameCount = [createBlankFrame "w"].length ∧
      s.width = OUTPUT_WIDTH * [createBlankFrame "w"].length ∧
      s.height = OUTPUT_HEIGHT) :=
  renderSprite_geometry [createBlankFrame "w"] (by decide)

set_option maxRecDepth 10000 in
/-- C5 counterexample: a single 3×5 frame renders to a 48×11 sprite, not
the 3×5 the claim's `w*n × h` formula demands — the canvas dimensions are
the OUTPUT constants, not the frames' own sizes. -/
theorem renderSprite_cex :
    (renderFramesToSpritePNG [⟨"a", 3, 5, List.replicate 15 0⟩]).map
      (fun s => (s.frameCount, s.width, s.height)) ≠
    Except.ok (1, 3, 5) := by
  decide

end Badge
